import Mathlib

/-!
Verification development for an embedded NTP client library
(sources: NTPClient.cpp, NTPClient.h, NTPClientLogging.h, test_ntpclient.cpp).

The C++ code is shallowly embedded: machine integers become Nat or Int with
explicit wrap-around (mod 2 to a power) at the points where the C code
performs unsigned 32-bit arithmetic; functions that signal failure through a
sentinel return value become Option-valued functions; the mutable client
object becomes explicit state passing.  The single-precision float
arithmetic of the statistics filter is embedded exactly: every operand
conversion and every arithmetic operation is followed by binary32
round-to-nearest-even (roundF32 below), and the stores apply the C
integer casts as truncation toward zero; only the aggregate
average-duration float, which the claims merely assert is updated, is
modelled as an exact rational.
-/

namespace NTP

/-- Offset between the NTP epoch (1900) and the Unix epoch (1970), from
NTPClient.h line 214: NTP_TIMESTAMP_DELTA = 2208988800UL. -/
def NTP_TIMESTAMP_DELTA : Nat := 2208988800

/-- Maximum number of registered servers, NTPClient.h line 218. -/
def MAX_SERVERS : Nat := 10

/-- Failure threshold after which a server is marked unreachable,
NTPClient.h line 219: MAX_RETRY_COUNT = 3. -/
def MAX_RETRY_COUNT : Nat := 3

/-- The 48-byte NTP wire packet, from the struct NTPPacket in
NTPClient.h lines 29-45.  Each uint8 field is a Nat below 256 and each
uint32 field a Nat below 2 to the 32; the big-endian byte layout is made
explicit by wireBytes below. -/
structure NTPPacket where
  li_vn_mode : Nat
  stratum : Nat
  poll : Nat
  precision : Nat
  rootDelay : Nat
  rootDispersion : Nat
  refId : Nat
  refTm_s : Nat
  refTm_f : Nat
  origTm_s : Nat
  origTm_f : Nat
  rxTm_s : Nat
  rxTm_f : Nat
  txTm_s : Nat
  txTm_f : Nat
  deriving DecidableEq

/-- Big-endian byte decomposition of a 32-bit value (the struct stores
fields already in network byte order via htonl; on the wire each uint32
occupies four big-endian bytes). -/
def be32 (x : Nat) : List Nat :=
  [x / 2 ^ 24 % 256, x / 2 ^ 16 % 256, x / 2 ^ 8 % 256, x % 256]

/-- The byte sequence of a packet as sent on the wire: the packed struct
of NTPClient.h lines 29-45 (four single bytes followed by eleven
big-endian 32-bit words, 48 bytes in total). -/
def wireBytes (p : NTPPacket) : List Nat :=
  [p.li_vn_mode, p.stratum, p.poll, p.precision]
    ++ be32 p.rootDelay ++ be32 p.rootDispersion ++ be32 p.refId
    ++ be32 p.refTm_s ++ be32 p.refTm_f
    ++ be32 p.origTm_s ++ be32 p.origTm_f
    ++ be32 p.rxTm_s ++ be32 p.rxTm_f
    ++ be32 p.txTm_s ++ be32 p.txTm_f

/-- Request packet built by NTPClient::sendNTPPacket (NTPClient.cpp lines
463-495): the struct is zeroed by memset, the first byte is set to the
literal 0b00100011, and the originate-timestamp seconds field is set to
the current system time plus NTP_TIMESTAMP_DELTA, truncated to uint32
(the cast of the time_t sum to uint32_t at line 473). -/
def encodeRequest (now : Int) : NTPPacket :=
  { li_vn_mode := 0b00100011
    stratum := 0
    poll := 0
    precision := 0
    rootDelay := 0
    rootDispersion := 0
    refId := 0
    refTm_s := 0
    refTm_f := 0
    origTm_s := ((now + (NTP_TIMESTAMP_DELTA : Int)).emod (2 ^ 32)).toNat
    origTm_f := 0
    rxTm_s := 0
    rxTm_f := 0
    txTm_s := 0
    txTm_f := 0 }

/-- Validation and epoch conversion performed by NTPClient::parseNTPPacket
(NTPClient.cpp lines 530-573) on the transmit-timestamp seconds field,
before the round-trip compensation: reject seconds below one billion
(line 550), subtract NTP_TIMESTAMP_DELTA in wrapping uint32 arithmetic
(line 560), reject a resulting Unix time outside [946684800, 2147483647]
(line 570).  The C function returns 0 on failure; here failure is none. -/
def decodeSeconds (txTm_s : Nat) : Option Nat :=
  if txTm_s < 1000000000 then none
  else
    let unixTime32 := (txTm_s + 2 ^ 32 - NTP_TIMESTAMP_DELTA) % 2 ^ 32
    if unixTime32 < 946684800 ∨ 2147483647 < unixTime32 then none
    else some unixTime32

/-- NTPClient::parseNTPPacket (NTPClient.cpp lines 530-581): the decode of
decodeSeconds followed by the symmetric-delay adjustment of line 576,
ntpTime += rtt / 2000 (rtt is the measured round trip in milliseconds; the
integer division by 2000 is half the round trip in whole seconds). -/
def parseNTPPacket (p : NTPPacket) (rtt : Nat) : Option Nat :=
  (decodeSeconds p.txTm_s).map (fun u => u + rtt / 2000)

/-- NTP fraction-to-microseconds conversion as written in the repository
unit tests (test_ntpclient.cpp lines 256-297): the 64-bit product of the
fraction with one million, shifted right by 32 bits. -/
def ntpFractionToMicroseconds (f : Nat) : Nat :=
  f * 1000000 / 2 ^ 32

/-- A server record, from struct NTPServer in NTPClient.h lines 48-57.
failureCount is a uint32 in the source; its wrap-around at 2 to the 32 is
unreachable in any execution (counts are reset at 0 and compared against
3) and is not modelled. -/
structure Server where
  hostname : String
  port : Nat
  lastSuccessTime : Nat
  failureCount : Nat
  averageOffset : Int
  averageRTT : Nat
  reachable : Bool
  stratum : Nat
  deriving DecidableEq

/-- Fresh record inserted by NTPClient::addServer (NTPClient.cpp lines
78-87). -/
def freshServer (hostname : String) (port : Nat) : Server :=
  { hostname := hostname
    port := port
    lastSuccessTime := 0
    failureCount := 0
    averageOffset := 0
    averageRTT := 0
    reachable := true
    stratum := 255 }

/-- The duplicate scan of NTPClient::addServer (NTPClient.cpp lines 71-76):
an entry with the same hostname and the same port already exists. -/
def containsServer (servers : List Server) (hostname : String) (port : Nat) : Bool :=
  servers.any (fun s => s.hostname = hostname ∧ s.port = port)

/-- NTPClient::addServer (NTPClient.cpp lines 63-92).  The capacity check
comes first (line 65), then the duplicate scan (lines 71-76), then the
append of a fresh record.  Returns the C bool result and the new list. -/
def addServer (servers : List Server) (hostname : String) (port : Nat) :
    Bool × List Server :=
  if MAX_SERVERS ≤ servers.length then (false, servers)
  else if containsServer servers hostname port then (true, servers)
  else (true, servers ++ [freshServer hostname port])

/-- Score of one server in NTPClient::getBestServer (NTPClient.cpp lines
121-123), computed in uint32 arithmetic. -/
def scoreOf (s : Server) : Nat :=
  (s.stratum * 1000 + s.failureCount * 100 + s.averageRTT) % 2 ^ 32

/-- Scan loop of NTPClient::getBestServer (NTPClient.cpp lines 113-132):
skip unreachable servers, keep the first strictly improving score against
a running best initialised to UINT32_MAX.  The returned value is the index
of the chosen record (the C function returns a pointer into the vector). -/
def getBestServerGo : List Server → Nat → Option Nat → Nat → Option Nat
  | [], _, best, _ => best
  | s :: rest, i, best, bestScore =>
    if s.reachable = true ∧ scoreOf s < bestScore then
      getBestServerGo rest (i + 1) (some i) (scoreOf s)
    else
      getBestServerGo rest (i + 1) best bestScore

/-- NTPClient::getBestServer (NTPClient.cpp lines 113-132). -/
def getBestServer (servers : List Server) : Option Nat :=
  getBestServerGo servers 0 none (2 ^ 32 - 1)

/-- Truncation of a rational toward zero, the effect of the C casts
(int32_t) and (uint16_t) applied to a float value. -/
def truncQ (q : ℚ) : Int :=
  if 0 ≤ q then ⌊q⌋ else ⌈q⌉

/-- The exact smoothing factor written in the spec, alpha = 0.1. -/
def alphaQ : ℚ := 1 / 10

/-- An integer scaled by a (possibly negative) power of two, as a
rational. -/
def scaleB (m : Int) (e : Int) : ℚ :=
  (m : ℚ) * (2 : ℚ) ^ e

/-- Fuel-counted floor of the base-two logarithm of a natural number. -/
def natLog2FAux : Nat → Nat → Nat
  | 0, _ => 0
  | fuel + 1, n => if 2 ≤ n then natLog2FAux fuel (n / 2) + 1 else 0

/-- Floor of the base-two logarithm of a natural number (0 on inputs
below 2); the fuel n always suffices since each step halves the
argument. -/
def natLog2F (n : Nat) : Nat :=
  natLog2FAux n n

/-- Floor of the base-two logarithm of a positive rational (0 on
nonpositive input, which the callers exclude). -/
def qFloorLog2 (q : ℚ) : Int :=
  if 1 ≤ q then (natLog2F (Int.toNat ⌊q⌋) : Int)
  else if 0 < q then
    (if (2 : ℚ) ^ natLog2F (Int.toNat ⌊1 / q⌋) < 1 / q
     then -(natLog2F (Int.toNat ⌊1 / q⌋) : Int) - 1
     else -(natLog2F (Int.toNat ⌊1 / q⌋) : Int))
  else 0

/-- Rounding of a rational to the nearest integer, ties to even. -/
def roundNearestEven (q : ℚ) : Int :=
  if q - (⌊q⌋ : ℚ) < 1 / 2 then ⌊q⌋
  else if (1 : ℚ) / 2 < q - (⌊q⌋ : ℚ) then ⌊q⌋ + 1
  else if ⌊q⌋ % 2 = 0 then ⌊q⌋ else ⌊q⌋ + 1

/-- Rounding of a rational to the nearest IEEE-754 binary32 value (round
to nearest, ties to even), with unbounded exponent range: the mantissa is
the nearest-even 24-bit integer at the scale of the input.  For the
operand magnitudes that occur in the statistics filter (zero, or between
about 0.09 and 2 to the 32) this coincides with single-precision float
rounding, as no subnormal or overflow case is reachable there. -/
def roundF32 (x : ℚ) : ℚ :=
  if x = 0 then 0
  else if x < 0 then
    -scaleB (roundNearestEven (scaleB 1 (-(qFloorLog2 (-x) - 23)) * (-x)))
      (qFloorLog2 (-x) - 23)
  else
    scaleB (roundNearestEven (scaleB 1 (-(qFloorLog2 x - 23)) * x))
      (qFloorLog2 x - 23)

/-- The float32 constant OFFSET_FILTER_ALPHA = 0.1f of NTPClient.h line
220: the decimal literal rounded to binary32. -/
def alphaF32 : ℚ := roundF32 (1 / 10)

/-- The float32 value of the subexpression 1.0f - OFFSET_FILTER_ALPHA. -/
def oneMinusAlphaF32 : ℚ := roundF32 (1 - alphaF32)

/-- The exponential-moving-average expression of NTPClient.cpp lines
593-596 evaluated in single precision: each integer operand is converted
to binary32, each multiplication and the final addition round to
binary32.  The model assumes plain IEEE evaluation (no fused
multiply-add contraction of the product into the sum). -/
def emaF32 (avg obs : ℚ) : ℚ :=
  roundF32 (roundF32 (oneMinusAlphaF32 * roundF32 avg)
    + roundF32 (alphaF32 * roundF32 obs))

/-- NTPClient::updateServerStats (NTPClient.cpp lines 583-607).  On
success: store the success time (the clock value is passed in explicitly
here; the C code reads time(nullptr)), zero the failure count, and either
hard-set both averages when averageOffset holds the zero sentinel (lines
589-591) or update each with the exponential moving average of lines
593-596, evaluated in single-precision float (embedded exactly through
roundF32) and truncated to the integer storage type by the C casts
(int32_t) and (uint16_t).  On failure: increment the failure count and
mark the server unreachable once the count reaches MAX_RETRY_COUNT
(lines 598-605); a success never writes the reachable flag. -/
def updateServerStats (s : Server) (success : Bool) (offset : Int) (rtt : Nat)
    (now : Nat) : Server :=
  if success then
    let s' := { s with lastSuccessTime := now, failureCount := 0 }
    if s.averageOffset = 0 then
      { s' with averageOffset := offset, averageRTT := rtt }
    else
      { s' with
        averageOffset := truncQ (emaF32 (s.averageOffset : ℚ) (offset : ℚ))
        averageRTT := (truncQ (emaF32 (s.averageRTT : ℚ) (rtt : ℚ))).toNat }
  else
    let fc := s.failureCount + 1
    { s with
      failureCount := fc
      reachable := if MAX_RETRY_COUNT ≤ fc then false else s.reachable }

/-- The server lookup of NTPClient::syncTimeFromServer (NTPClient.cpp
lines 181-188) followed by a stats update on the record found: the first
record whose hostname matches is replaced by f of it; when no hostname
matches, the serverInfo pointer is null and the list is unchanged. -/
def updateFirstMatch (servers : List Server) (hostname : String)
    (f : Server → Server) : List Server :=
  match servers with
  | [] => []
  | s :: rest =>
    if s.hostname = hostname then f s :: rest
    else s :: updateFirstMatch rest hostname f

/-- The per-attempt failure path, updateServerStats(server, false, 0, 0)
as called at NTPClient.cpp lines 196, 208 and 222. -/
def failUpdate (s : Server) : Server :=
  updateServerStats s false 0 0 0

/-- One iteration of the fallback loop of NTPClient::syncTime (lines
154-161) as it acts on a single record when every attempt fails: a
reachable record receives the failure update, an unreachable one is
skipped. -/
def specFn (s : Server) : Server :=
  if s.reachable = true then failUpdate s else s

/-- Result of one synchronization attempt, struct SyncResult in
NTPClient.h lines 60-75.  The char buffers become Strings (the source
truncates serverUsed at 63 and error at 127 characters; the claim-relevant
strings are far shorter). -/
structure SyncResult where
  syncTime : Int
  serverUsed : String
  error : String
  offsetMs : Int
  syncUsec : Nat
  roundTripMs : Nat
  stratum : Nat
  success : Bool
  deriving DecidableEq

/-- The default-constructed SyncResult (NTPClient.h lines 71-74). -/
def emptyResult : SyncResult :=
  { syncTime := 0
    serverUsed := ""
    error := ""
    offsetMs := 0
    syncUsec := 0
    roundTripMs := 0
    stratum := 0
    success := false }

/-- The mutable client object, the private fields of NTPClient
(NTPClient.h lines 176-203) that the claims touch.  The three Bool fields
record whether the corresponding std::function callback is set.  The
float average is modelled over the rationals. -/
structure ClientState where
  initialized : Bool
  servers : List Server
  syncCount : Nat
  syncFailures : Nat
  lastSyncTime : Int
  lastOffset : Int
  totalSyncTime : Nat
  averageSyncTime : ℚ
  hasSyncCallback : Bool
  hasRtcCallback : Bool
  hasTimeChangeCallback : Bool
  deriving DecidableEq

/-- Observable side effects of one attempt: the settimeofday call inside
applyTimeOffset (NTPClient.cpp lines 636-647) and the three callback
invocations (lines 261-267 and 644-646), in program order. -/
inductive SyncEvent where
  | clockSet (t : Int)
  | timeChangeCb (oldTime newTime : Int)
  | syncCb
  | rtcCb
  deriving DecidableEq

/-- Behaviour of the transport during one attempt: the send fails
(lines 191-199), no response arrives before the timeout (lines 203-211),
or a 48-byte response packet is received. -/
inductive TransportOutcome where
  | sendFail
  | timeout
  | response (p : NTPPacket)
  deriving DecidableEq

/-- Wrap-around of an Int to the value of the corresponding int32_t. -/
def toInt32 (x : Int) : Int :=
  (x + 2 ^ 31).emod (2 ^ 32) - 2 ^ 31

/-- NTPClient::syncTimeFromServer (NTPClient.cpp lines 169-270), with the
transport outcome, the measured round trip (rtt, line 214), the current
system clock (the time(nullptr) reads at lines 228 and 637) and the
attempt duration (millis() difference, line 248) passed in explicitly.
Returns the result, the new state, and the emitted events.  On each
failure path the first record matching the hostname (if any) receives the
failure update; on success that record receives the success update
followed by the stratum write of line 254 (the success update reads the
clock after applyTimeOffset has set it, hence now = ntpTime), the global
statistics of lines 244-250 are updated and the events of lines 232 and
261-267 fire.  The syncUsec field of the result is never assigned
anywhere in NTPClient.cpp and keeps its constructor value 0. -/
def syncTimeFromServer (st : ClientState) (hostname : String)
    (outcome : TransportOutcome) (rtt : Nat) (currentTime : Int)
    (syncDuration : Nat) : SyncResult × ClientState × List SyncEvent :=
  let base : SyncResult := { emptyResult with serverUsed := hostname }
  match outcome with
  | TransportOutcome.sendFail =>
    ({ base with error := "Failed to send NTP packet" },
     { st with servers := updateFirstMatch st.servers hostname failUpdate }, [])
  | TransportOutcome.timeout =>
    ({ base with error := "Timeout waiting for NTP response" },
     { st with servers := updateFirstMatch st.servers hostname failUpdate }, [])
  | TransportOutcome.response p =>
    match parseNTPPacket p rtt with
    | none =>
      ({ base with error := "Invalid NTP packet received" },
       { st with servers := updateFirstMatch st.servers hostname failUpdate }, [])
    | some t =>
      let ntpTime : Int := (t : Int)
      let offset := toInt32 (toInt32 (ntpTime - currentTime) * 1000)
      let evs :=
        [SyncEvent.clockSet ntpTime]
          ++ (if st.hasTimeChangeCallback then
                [SyncEvent.timeChangeCb currentTime ntpTime] else [])
          ++ (if st.hasSyncCallback then [SyncEvent.syncCb] else [])
          ++ (if st.hasRtcCallback then [SyncEvent.rtcCb] else [])
      let res : SyncResult :=
        { base with
          success := true
          offsetMs := offset
          roundTripMs := rtt
          stratum := p.stratum
          syncTime := ntpTime }
      let st' : ClientState :=
        { st with
          syncCount := st.syncCount + 1
          lastSyncTime := ntpTime
          lastOffset := offset
          totalSyncTime := st.totalSyncTime + syncDuration
          averageSyncTime :=
            ((st.totalSyncTime + syncDuration : Nat) : ℚ) / ((st.syncCount + 1 : Nat) : ℚ)
          servers :=
            updateFirstMatch st.servers hostname
              (fun s =>
                { updateServerStats s true offset rtt
                    ((ntpTime.emod (2 ^ 32)).toNat) with
                  stratum := p.stratum }) }
      (res, st', evs)

/-- The fallback loop of NTPClient::syncTime (NTPClient.cpp lines
154-161) in the run where every attempt fails: walk the vector by index;
at each position, if the record is currently reachable, perform a failed
attempt against its hostname (which applies failUpdate to the first
record with that hostname).  The counter n bounds the recursion by the
list length, which every step preserves. -/
def loopFailAux : Nat → List Server → Nat → List Server
  | 0, servers, _ => servers
  | n + 1, servers, i =>
    match servers[i]? with
    | none => servers
    | some s =>
      if s.reachable = true then
        loopFailAux n (updateFirstMatch servers s.hostname failUpdate) (i + 1)
      else
        loopFailAux n servers (i + 1)

/-- The complete fallback pass over the vector. -/
def loopFail (servers : List Server) : List Server :=
  loopFailAux servers.length servers 0

/-- NTPClient::syncTime (NTPClient.cpp lines 134-167) in the run where
every request/response attempt fails (send failure, timeout or invalid
packet; each failed attempt leaves the global counters untouched and
applies the failure update to the attempted record, exactly the failure
path of syncTimeFromServer).  Not initialized: error, no other change.
Otherwise: one attempt against the best-scoring server (lines 145-151),
then the fallback loop over all currently reachable servers (lines
154-161), then the global failure counter increment and the final error
(lines 163-166). -/
def syncTimeAllFail (st : ClientState) : SyncResult × ClientState :=
  if st.initialized = false then
    ({ emptyResult with error := "NTP client not initialized" }, st)
  else
    let servers1 :=
      match getBestServer st.servers with
      | some b =>
        match st.servers[b]? with
        | some s => updateFirstMatch st.servers s.hostname failUpdate
        | none => st.servers
      | none => st.servers
    let servers2 := loopFail servers1
    ({ emptyResult with error := "Failed to sync with any server" },
     { st with servers := servers2, syncFailures := st.syncFailures + 1 })

/-- NTPClient::resetStatistics (NTPClient.cpp lines 435-449). -/
def resetStatistics (st : ClientState) : ClientState :=
  { st with
    syncCount := 0
    syncFailures := 0
    averageSyncTime := 0
    totalSyncTime := 0
    servers :=
      st.servers.map (fun s =>
        { s with
          failureCount := 0
          averageOffset := 0
          averageRTT := 0
          reachable := true }) }

/-- Hostnames in the registry are pairwise distinct (ports may repeat).
Registries built by addServer with distinct hostnames satisfy this; it is
the precondition under which the hostname lookup of syncTimeFromServer
finds the attempted record itself. -/
def distinctHostnames (servers : List Server) : Prop :=
  (servers.map Server.hostname).Nodup

instance (servers : List Server) : Decidable (distinctHostnames servers) :=
  inferInstanceAs (Decidable ((servers.map Server.hostname).Nodup))

/-- NTPClient::isLeapYear (NTPClient.cpp lines 673-675). -/
def isLeapYear (year : Int) : Bool :=
  (year % 4 = 0 ∧ year % 100 ≠ 0) ∨ year % 400 = 0

/-- NTPClient::daysInMonth (NTPClient.cpp lines 677-685): the static table
indexed by month - 1, with the February leap-year special case. -/
def daysInMonth (month : Nat) (year : Int) : Nat :=
  if month = 2 ∧ isLeapYear year then 29
  else [31, 28, 31, 30, 31, 30, 31, 31, 30, 31, 30, 31].getD (month - 1) 0

/-- Days since 1970-01-01 of a proleptic Gregorian date.  This is the
model of the libc mktime call (with the device clock in UTC, the default
on the target) used by NTPClient::getDSTTransition; a day-of-month beyond
the end of the month is normalised forward exactly as mktime does, since
the count is linear in d. -/
def daysFromCivil (y m d : Int) : Int :=
  let y' := if m ≤ 2 then y - 1 else y
  let era := Int.fdiv y' 400
  let yoe := y' - era * 400
  let doy := Int.fdiv (153 * (m + (if 2 < m then -3 else 9)) + 2) 5 + d - 1
  let doe := yoe * 365 + Int.fdiv yoe 4 - Int.fdiv yoe 100 + doy
  era * 146097 + doe - 719468

/-- The libc mktime call on a tm record holding (year, month, day, hour,
minute, second), modelled in UTC. -/
def mkTimeUTC (y m d hour minute second : Int) : Int :=
  (daysFromCivil y m 1 + (d - 1)) * 86400 + hour * 3600 + minute * 60 + second

/-- The tm_wday field produced by gmtime: 0 is Sunday; day 0 of the Unix
epoch was a Thursday. -/
def weekdayOf (t : Int) : Int :=
  Int.emod (Int.fdiv t 86400 + 4) 7

/-- The calendar year of a day count since the epoch (the tm_year + 1900
field produced by gmtime), by the standard civil-from-days algorithm. -/
def civilYear (z : Int) : Int :=
  let z' := z + 719468
  let era := Int.fdiv z' 146097
  let doe := z' - era * 146097
  let yoe :=
    Int.fdiv (doe - Int.fdiv doe 1460 + Int.fdiv doe 36524 - Int.fdiv doe 146096) 365
  let y := yoe + era * 400
  let doy := doe - (365 * yoe + Int.fdiv yoe 4 - Int.fdiv yoe 100)
  let mp := Int.fdiv (5 * doy + 2) 153
  let m := mp + (if mp < 10 then 3 else -9)
  if m ≤ 2 then y + 1 else y

/-- The calendar year of a UTC timestamp, as read by NTPClient::isDST from
gmtime_r (NTPClient.cpp lines 306-309). -/
def yearOf (t : Int) : Int :=
  civilYear (Int.fdiv t 86400)

/-- The while loop at NTPClient.cpp lines 625-630: pull the candidate day
back a week at a time while it exceeds the number of days in the month. -/
def shrinkToMonth (t dim : Int) : Int :=
  if dim < t then shrinkToMonth (t - 7) dim else t
termination_by (t - dim).toNat
decreasing_by
  simp only [Int.lt_iff_add_one_le] at *
  omega

/-- NTPClient::getDSTTransition (NTPClient.cpp lines 609-634): the
ordinal-weekday rule.  Take the weekday of the first of the month, find
the first occurrence of the target weekday, advance week - 1 whole weeks
(both in C int arithmetic), and for week 5 shrink back into the month. -/
def getDSTTransition (year : Int) (month week dayOfWeek hour : Nat) : Int :=
  let firstDay := mkTimeUTC year (month : Int) 1 (hour : Int) 0 0
  let firstDayOfWeek := weekdayOf firstDay
  let daysUntilTarget := Int.emod ((dayOfWeek : Int) - firstDayOfWeek + 7) 7
  let targetDay := 1 + daysUntilTarget + ((week : Int) - 1) * 7
  let targetDay' :=
    if week = 5 then shrinkToMonth targetDay ((daysInMonth month year : Nat) : Int)
    else targetDay
  mkTimeUTC year (month : Int) targetDay' (hour : Int) 0 0

/-- Time zone rule, struct TimeZoneConfig in NTPClient.h lines 78-91. -/
structure TimeZoneConfig where
  offsetMinutes : Int
  name : String
  useDST : Bool
  dstStartWeek : Nat
  dstStartMonth : Nat
  dstStartDayOfWeek : Nat
  dstStartHour : Nat
  dstEndWeek : Nat
  dstEndMonth : Nat
  dstEndDayOfWeek : Nat
  dstEndHour : Nat
  dstOffsetMinutes : Int
  deriving DecidableEq

/-- NTPClient::isDST(time_t) (NTPClient.cpp lines 303-328). -/
def isDST (tz : TimeZoneConfig) (timestamp : Int) : Bool :=
  if tz.useDST = false then false
  else
    let year := yearOf timestamp
    let dstStart :=
      getDSTTransition year tz.dstStartMonth tz.dstStartWeek
        tz.dstStartDayOfWeek tz.dstStartHour
    let dstEnd :=
      getDSTTransition year tz.dstEndMonth tz.dstEndWeek
        tz.dstEndDayOfWeek tz.dstEndHour
    if dstStart < dstEnd then
      decide (dstStart ≤ timestamp ∧ timestamp < dstEnd)
    else
      decide (dstStart ≤ timestamp ∨ timestamp < dstEnd)

/-- The EST preset, NTPClient::getTimeZoneEST (NTPClient.cpp lines
688-697).  The brace initialiser fills the struct fields in declaration
order: offset, name, useDST, start (week, month, weekday, hour), end
(week, month, weekday, hour), DST offset. -/
def getTimeZoneEST : TimeZoneConfig :=
  { offsetMinutes := -300
    name := "EST"
    useDST := true
    dstStartWeek := 2
    dstStartMonth := 3
    dstStartDayOfWeek := 0
    dstStartHour := 2
    dstEndWeek := 1
    dstEndMonth := 11
    dstEndDayOfWeek := 0
    dstEndHour := 2
    dstOffsetMinutes := 60 }

/-- The UTC preset, NTPClient::getTimeZoneUTC (NTPClient.cpp lines
721-730). -/
def getTimeZoneUTC : TimeZoneConfig :=
  { offsetMinutes := 0
    name := "UTC"
    useDST := false
    dstStartWeek := 0
    dstStartMonth := 0
    dstStartDayOfWeek := 0
    dstStartHour := 0
    dstEndWeek := 0
    dstEndMonth := 0
    dstEndDayOfWeek := 0
    dstEndHour := 0
    dstOffsetMinutes := 0 }

/-- A registry of ten fresh records, used to exhibit a full registry. -/
def tenServers : List Server :=
  [freshServer "s0" 123, freshServer "s1" 123, freshServer "s2" 123,
   freshServer "s3" 123, freshServer "s4" 123, freshServer "s5" 123,
   freshServer "s6" 123, freshServer "s7" 123, freshServer "s8" 123,
   freshServer "s9" 123]

/-- C1.  For every received 48-byte response packet, decoding fails (the
parser returns its error value) if and only if the transmit-timestamp
seconds field is below 1000000000, or the seconds field minus the NTP
epoch delta 2208988800 yields a Unix time outside the closed range
[946684800, 2147483647]; every packet passing both checks decodes
successfully to that Unix time. -/
theorem claim_C1_decode (p : NTPPacket) (rtt : Nat) (hs : p.txTm_s < 2 ^ 32) :
    (parseNTPPacket p rtt = none ↔
      p.txTm_s < 1000000000 ∨
        ((p.txTm_s : Int) - 2208988800 < 946684800 ∨
          2147483647 < (p.txTm_s : Int) - 2208988800)) ∧
    (¬(p.txTm_s < 1000000000 ∨
        ((p.txTm_s : Int) - 2208988800 < 946684800 ∨
          2147483647 < (p.txTm_s : Int) - 2208988800)) →
      decodeSeconds p.txTm_s = some (p.txTm_s - NTP_TIMESTAMP_DELTA)) := by
  unfold parseNTPPacket decodeSeconds NTP_TIMESTAMP_DELTA
  constructor
  · by_cases h1 : p.txTm_s < 1000000000
    · simp only [if_pos h1, Option.map_none']
      exact ⟨fun _ => Or.inl h1, fun _ => trivial⟩
    · simp only [if_neg h1]
      by_cases h2 : (p.txTm_s + 2 ^ 32 - 2208988800) % 2 ^ 32 < 946684800 ∨
          2147483647 < (p.txTm_s + 2 ^ 32 - 2208988800) % 2 ^ 32
      · simp only [if_pos h2, Option.map_none']
        refine ⟨fun _ => Or.inr ?_, fun _ => trivial⟩
        omega
      · simp only [if_neg h2, Option.map_some']
        constructor
        · intro hc
          exact absurd hc (by simp)
        · intro hc
          exfalso
          omega
  · intro hpass
    push_neg at hpass
    obtain ⟨hp1, hp2, hp3⟩ := hpass
    have h1 : ¬ p.txTm_s < 1000000000 := by omega
    have h2 : ¬ ((p.txTm_s + 2 ^ 32 - 2208988800) % 2 ^ 32 < 946684800 ∨
        2147483647 < (p.txTm_s + 2 ^ 32 - 2208988800) % 2 ^ 32) := by omega
    simp only [if_neg h1, if_neg h2]
    exact congrArg some (by omega)

/-- Concrete response packet for the C1 witness: transmit seconds
3913056000, which is Unix time 1704067200 (2024-01-01T00:00:00Z). -/
def c1Packet : NTPPacket :=
  { li_vn_mode := 0x24, stratum := 2, poll := 0, precision := 0,
    rootDelay := 0, rootDispersion := 0, refId := 0,
    refTm_s := 0, refTm_f := 0, origTm_s := 0, origTm_f := 0,
    rxTm_s := 0, rxTm_f := 0, txTm_s := 3913056000, txTm_f := 0 }

/-- Witness for C1 at the concrete packet c1Packet. -/
theorem claim_C1_decode_witness :
    decodeSeconds c1Packet.txTm_s = some (c1Packet.txTm_s - NTP_TIMESTAMP_DELTA) :=
  (claim_C1_decode c1Packet 0 (by decide)).2 (by decide)

/-- C2 (code bug).  The request datagram is exactly 48 bytes with all
fields other than the first byte and the originate-timestamp seconds
zeroed, and the originate seconds hold the system time plus 2208988800;
but the first byte 0b00100011 packs version 4, not version 3 as both the
claim and the comment at NTPClient.cpp line 468 state (version 3 would be
0b00011011). -/
theorem claim_C2_version_bug :
    (wireBytes (encodeRequest 1704067200)).length = 48 ∧
    (encodeRequest 1704067200).li_vn_mode / 64 = 0 ∧
    (encodeRequest 1704067200).li_vn_mode % 8 = 3 ∧
    (encodeRequest 1704067200).li_vn_mode / 8 % 8 = 4 ∧
    ¬ ((encodeRequest 1704067200).li_vn_mode / 8 % 8 = 3) ∧
    (encodeRequest 1704067200).origTm_s = (1704067200 + 2208988800) % 2 ^ 32 ∧
    (encodeRequest 1704067200).stratum = 0 ∧
    (encodeRequest 1704067200).poll = 0 ∧
    (encodeRequest 1704067200).precision = 0 ∧
    (encodeRequest 1704067200).rootDelay = 0 ∧
    (encodeRequest 1704067200).rootDispersion = 0 ∧
    (encodeRequest 1704067200).refId = 0 ∧
    (encodeRequest 1704067200).refTm_s = 0 ∧
    (encodeRequest 1704067200).origTm_f = 0 ∧
    (encodeRequest 1704067200).rxTm_s = 0 ∧
    (encodeRequest 1704067200).txTm_s = 0 ∧
    (encodeRequest 1704067200).txTm_f = 0 := by
  decide

/-- C6.  For every successful decode with measured round-trip time rtt in
integer milliseconds, the time produced by parseNTPPacket equals the
decoded transmit time plus half the round trip in integer milliseconds,
truncated to the whole-second resolution of the returned time_t (the
division rtt / 2 / 1000 equals the rtt / 2000 of NTPClient.cpp line
576). -/
theorem claim_C6_halfRtt (p : NTPPacket) (rtt u : Nat)
    (h : decodeSeconds p.txTm_s = some u) :
    parseNTPPacket p rtt = some (u + rtt / 2 / 1000) := by
  unfold parseNTPPacket
  rw [h, Option.map_some']
  congr 1
  omega

/-- Concrete packet for the C6 witness. -/
def c6Packet : NTPPacket :=
  { li_vn_mode := 0x24, stratum := 3, poll := 0, precision := 0,
    rootDelay := 0, rootDispersion := 0, refId := 0,
    refTm_s := 0, refTm_f := 0, origTm_s := 0, origTm_f := 0,
    rxTm_s := 0, rxTm_f := 0, txTm_s := 3913056000, txTm_f := 0 }

/-- Witness for C6: a 5000 ms round trip adds 2 whole seconds. -/
theorem claim_C6_halfRtt_witness :
    parseNTPPacket c6Packet 5000 = some (1704067200 + 5000 / 2 / 1000) :=
  claim_C6_halfRtt c6Packet 5000 1704067200 (by decide)

/-- Client state for the C5 bug theorem: initialized, no servers. -/
def c5State : ClientState :=
  { initialized := true, servers := [], syncCount := 0, syncFailures := 0,
    lastSyncTime := 0, lastOffset := 0, totalSyncTime := 0,
    averageSyncTime := 0, hasSyncCallback := false, hasRtcCallback := false,
    hasTimeChangeCallback := false }

/-- Response packet for the C5 bug theorem: fraction 0x80000000, half a
second. -/
def c5Packet : NTPPacket :=
  { li_vn_mode := 0x24, stratum := 2, poll := 0, precision := 0,
    rootDelay := 0, rootDispersion := 0, refId := 0,
    refTm_s := 0, refTm_f := 0, origTm_s := 0, origTm_f := 0,
    rxTm_s := 0, rxTm_f := 0, txTm_s := 3913056000, txTm_f := 0x80000000 }

/-- C5 (code bug).  The sync succeeds on a response whose transmit
fraction is 0x80000000, the conversion formula asserted by the unit tests
gives 500000 microseconds for that fraction, yet the microseconds field
of the produced result is 0: NTPClient.cpp never computes or returns the
fraction conversion (its parseNTPPacket ignores txTm_f and takes no
usecOut parameter, although NTPClient.h line 208 declares one). -/
theorem claim_C5_usec_bug :
    ((syncTimeFromServer c5State "pool.ntp.org"
        (TransportOutcome.response c5Packet) 100 1704067100 120).1).success = true ∧
    ntpFractionToMicroseconds c5Packet.txTm_f = 500000 ∧
    ((syncTimeFromServer c5State "pool.ntp.org"
        (TransportOutcome.response c5Packet) 100 1704067100 120).1).syncUsec = 0 ∧
    ¬ (((syncTimeFromServer c5State "pool.ntp.org"
          (TransportOutcome.response c5Packet) 100 1704067100 120).1).syncUsec =
        ntpFractionToMicroseconds c5Packet.txTm_f) := by
  decide

/-- C8 counterexample.  A full registry (ten entries) that already
contains the pair ("s0", 123): addServer returns failure, although the
claim promises a successful no-op whenever an identical entry exists. -/
theorem claim_C8_counterexample :
    containsServer tenServers "s0" 123 = true ∧
    (addServer tenServers "s0" 123).1 = false ∧
    ¬ ((addServer tenServers "s0" 123).1 = true) := by
  decide

/-- C8 as amended.  The capacity check precedes the duplicate scan: at
ten or more entries addServer fails and changes nothing, even for a
duplicate; below capacity a duplicate (hostname, port) pair is a
successful no-op; otherwise a fresh record with stratum 255,
reachable=true and zeroed statistics is appended. -/
theorem claim_C8_amended (servers : List Server) (h : String) (p : Nat) :
    (MAX_SERVERS ≤ servers.length → addServer servers h p = (false, servers)) ∧
    (servers.length < MAX_SERVERS → containsServer servers h p = true →
      addServer servers h p = (true, servers)) ∧
    (servers.length < MAX_SERVERS → containsServer servers h p = false →
      addServer servers h p = (true, servers ++ [freshServer h p]) ∧
      (freshServer h p).hostname = h ∧
      (freshServer h p).port = p ∧
      (freshServer h p).stratum = 255 ∧
      (freshServer h p).reachable = true ∧
      (freshServer h p).lastSuccessTime = 0 ∧
      (freshServer h p).failureCount = 0 ∧
      (freshServer h p).averageOffset = 0 ∧
      (freshServer h p).averageRTT = 0) := by
  refine ⟨fun hfull => ?_, fun hroom hdup => ?_, fun hroom hdup => ?_⟩
  · unfold addServer
    rw [if_pos hfull]
  · unfold addServer
    rw [if_neg (by omega), if_pos hdup]
  · unfold addServer
    rw [if_neg (by omega), if_neg (by simp [hdup])]
    exact ⟨rfl, rfl, rfl, rfl, rfl, rfl, rfl, rfl, rfl⟩

/-- Witness for C8 at the empty registry. -/
theorem claim_C8_amended_witness :
    addServer [] "pool.ntp.org" 123 = (true, [freshServer "pool.ntp.org" 123]) :=
  ((claim_C8_amended [] "pool.ntp.org" 123).2.2 (by decide) (by decide)).1

/-- Server record for the C4 counterexample: reachable with two
consecutive failures on record. -/
def c4Server : Server :=
  { hostname := "time.nist.gov", port := 123, lastSuccessTime := 0,
    failureCount := 2, averageOffset := 0, averageRTT := 0,
    reachable := true, stratum := 2 }

/-- C4 counterexample.  The third consecutive failure makes the record
unreachable, but the next successful sync does not make it reachable
again, contrary to the claim. -/
theorem claim_C4_counterexample :
    (updateServerStats c4Server false 0 0 0).reachable = false ∧
    (updateServerStats (updateServerStats c4Server false 0 0 0) true 5 10 0).reachable
      = false ∧
    ¬ ((updateServerStats (updateServerStats c4Server false 0 0 0) true 5 10 0).reachable
      = true) := by
  decide

/-- C4 as amended.  A failure update flips a reachable record to
unreachable exactly when the consecutive-failure count reaches the
threshold 3; a success update never writes the reachable flag (it only
zeroes the failure count), so the flag returns to true only through an
explicit statistics reset, which sets every record reachable. -/
theorem claim_C4_amended (s : Server) (o : Int) (r : Nat) (n : Nat)
    (st : ClientState) :
    (s.reachable = true →
      ((updateServerStats s false o r n).reachable = false ↔
        MAX_RETRY_COUNT ≤ s.failureCount + 1)) ∧
    ((updateServerStats s true o r n).reachable = s.reachable) ∧
    (∀ srv ∈ (resetStatistics st).servers, srv.reachable = true) := by
  refine ⟨fun hreach => ?_, ?_, ?_⟩
  · unfold updateServerStats
    simp only [Bool.false_eq_true, if_false]
    by_cases h3 : MAX_RETRY_COUNT ≤ s.failureCount + 1
    · simp [h3]
    · simp [h3, hreach]
  · unfold updateServerStats
    by_cases hz : s.averageOffset = 0 <;> simp [hz]
  · intro srv hsrv
    simp only [resetStatistics, List.mem_map] at hsrv
    obtain ⟨x, _, rfl⟩ := hsrv
    rfl

/-- Witness for C4 at the concrete record c4Server. -/
theorem claim_C4_amended_witness :
    (updateServerStats c4Server false 0 0 0).reachable = false ↔
      MAX_RETRY_COUNT ≤ c4Server.failureCount + 1 :=
  (claim_C4_amended c4Server 0 0 0 c5State).1 rfl

/-- Truncation toward zero differs from the exact rational by less than
one. -/
theorem truncQ_abs_lt (q : ℚ) : |((truncQ q : Int) : ℚ) - q| < 1 := by
  unfold truncQ
  split_ifs with h
  · have h1 := Int.floor_le q
    have h2 := Int.sub_one_lt_floor q
    rw [abs_lt]
    constructor <;> linarith
  · have h1 := Int.le_ceil q
    have h2 := Int.ceil_lt_add_one q
    rw [abs_lt]
    constructor <;> linarith

/-- Truncation of a nonnegative rational is nonnegative. -/
theorem truncQ_nonneg (q : ℚ) (h : 0 ≤ q) : 0 ≤ truncQ q := by
  unfold truncQ
  rw [if_pos h]
  exact Int.le_floor.mpr (by exact_mod_cast h)

/-- The update the claim asserts for a subsequent success, following the
words of the spec: the stored average a is replaced by
(1 - 0.1) * a + 0.1 * observed, in exact arithmetic. -/
def specEMA (a obs : ℚ) : ℚ :=
  (1 - alphaQ) * a + alphaQ * obs

/-- Evaluation form of the floor of a rational. -/
theorem floor_eq_of (q : ℚ) (n : Int) (h1 : (n : ℚ) ≤ q)
    (h2 : q < (n : ℚ) + 1) : ⌊q⌋ = n :=
  Int.floor_eq_iff.mpr ⟨h1, by exact_mod_cast h2⟩

/-- Evaluation form of truncation on a nonnegative rational. -/
theorem truncQ_of_nonneg (q : ℚ) (n : Int) (h0 : 0 ≤ q) (hf : ⌊q⌋ = n) :
    truncQ q = n := by
  unfold truncQ
  rw [if_pos h0, hf]

/-- Evaluation form of nearest-even rounding when the fraction is below
one half. -/
theorem roundNE_down (q : ℚ) (f : Int) (hf : ⌊q⌋ = f)
    (h : q - (f : ℚ) < 1 / 2) : roundNearestEven q = f := by
  unfold roundNearestEven
  rw [hf, if_pos h]

/-- Evaluation form of nearest-even rounding when the fraction is above
one half. -/
theorem roundNE_up (q : ℚ) (f : Int) (hf : ⌊q⌋ = f)
    (h1 : ¬(q - (f : ℚ) < 1 / 2)) (h2 : (1 : ℚ) / 2 < q - (f : ℚ)) :
    roundNearestEven q = f + 1 := by
  unfold roundNearestEven
  rw [hf, if_neg h1, if_pos h2]

/-- Evaluation form of qFloorLog2 on a rational of size at least one. -/
theorem qFloorLog2_ge_one (q : ℚ) (h1 : 1 ≤ q) (n : Int) (hf : ⌊q⌋ = n) :
    qFloorLog2 q = (natLog2F n.toNat : Int) := by
  unfold qFloorLog2
  rw [if_pos h1, hf]

/-- Evaluation form of qFloorLog2 on a positive rational below one. -/
theorem qFloorLog2_lt_one (q : ℚ) (h1 : ¬(1 ≤ q)) (h0 : 0 < q) (n : Int)
    (hf : ⌊1 / q⌋ = n) :
    qFloorLog2 q =
      (if (2 : ℚ) ^ natLog2F n.toNat < 1 / q
       then -(natLog2F n.toNat : Int) - 1
       else -(natLog2F n.toNat : Int)) := by
  unfold qFloorLog2
  rw [if_neg h1, if_pos h0, hf]

/-- Evaluation form of binary32 rounding on a positive rational. -/
theorem roundF32_of_pos (x : ℚ) (hx : 0 < x) (k m : Int)
    (hk : qFloorLog2 x = k)
    (hm : roundNearestEven (scaleB 1 (-(k - 23)) * x) = m) :
    roundF32 x = scaleB m (k - 23) := by
  unfold roundF32
  rw [if_neg (ne_of_gt hx), if_neg (not_lt.mpr (le_of_lt hx)), hk, hm]

/-- Binary32 rounding of zero. -/
theorem roundF32_zero : roundF32 0 = 0 := by
  unfold roundF32
  rw [if_pos rfl]

/-- The binary32 value of the literal 0.1f: 13421773 over 2 to the 27. -/
theorem roundF32_tenth : roundF32 (1 / 10) = 13421773 / 134217728 := by
  rw [roundF32_of_pos (1 / 10) (by norm_num) (-4) 13421773
      (by rw [qFloorLog2_lt_one _ (by norm_num) (by norm_num) 10
            (floor_eq_of _ 10 (by norm_num) (by norm_num)),
          show natLog2F (Int.toNat 10) = 3 from by decide,
          if_pos (by norm_num)]
          decide)
      (by rw [show scaleB 1 (-(-4 - 23)) = 134217728 from by norm_num [scaleB],
            roundNE_up _ 13421772 (floor_eq_of _ 13421772 (by norm_num) (by norm_num))
              (by norm_num) (by norm_num)]
          decide)]
  norm_num [scaleB]

/-- The float32 constant alphaF32 as a rational literal. -/
theorem alphaF32_eq : alphaF32 = 13421773 / 134217728 := by
  unfold alphaF32
  exact roundF32_tenth

/-- The binary32 value of 1.0f minus 0.1f: 15099494 over 2 to the 24. -/
theorem roundF32_ptNine :
    roundF32 (120795955 / 134217728) = 7549747 / 8388608 := by
  rw [roundF32_of_pos (120795955 / 134217728) (by norm_num) (-1) 15099494
      (by rw [qFloorLog2_lt_one _ (by norm_num) (by norm_num) 1
            (floor_eq_of _ 1 (by norm_num) (by norm_num)),
          show natLog2F (Int.toNat 1) = 0 from by decide,
          if_pos (by norm_num)]
          decide)
      (by rw [show scaleB 1 (-(-1 - 23)) = 16777216 from by norm_num [scaleB]]
          exact roundNE_down _ 15099494
            (floor_eq_of _ 15099494 (by norm_num) (by norm_num)) (by norm_num))]
  norm_num [scaleB]

/-- The float32 subexpression constant oneMinusAlphaF32 as a rational
literal. -/
theorem oneMinusAlphaF32_eq : oneMinusAlphaF32 = 7549747 / 8388608 := by
  unfold oneMinusAlphaF32
  rw [alphaF32_eq,
    show (1 : ℚ) - 13421773 / 134217728 = 120795955 / 134217728 from by norm_num]
  exact roundF32_ptNine

/-- Binary32 rounding of 2147483640: the int32 value rounds up to 2 to
the 31. -/
theorem roundF32_big : roundF32 2147483640 = 2147483648 := by
  rw [roundF32_of_pos 2147483640 (by norm_num) 30 16777216
      (by rw [qFloorLog2_ge_one _ (by norm_num) 2147483640
            (floor_eq_of _ 2147483640 (by norm_num) (by norm_num))]
          decide)
      (by rw [show scaleB 1 (-(30 - 23)) = 1 / 128 from by norm_num [scaleB],
            roundNE_up _ 16777215 (floor_eq_of _ 16777215 (by norm_num) (by norm_num))
              (by norm_num) (by norm_num)]
          decide)]
  norm_num [scaleB]

/-- Binary32 rounding of 1932735232, which is exactly representable. -/
theorem roundF32_bigr : roundF32 1932735232 = 1932735232 := by
  rw [roundF32_of_pos 1932735232 (by norm_num) 30 15099494
      (by rw [qFloorLog2_ge_one _ (by norm_num) 1932735232
            (floor_eq_of _ 1932735232 (by norm_num) (by norm_num))]
          decide)
      (by rw [show scaleB 1 (-(30 - 23)) = 1 / 128 from by norm_num [scaleB]]
          exact roundNE_down _ 15099494
            (floor_eq_of _ 15099494 (by norm_num) (by norm_num)) (by norm_num))]
  norm_num [scaleB]

/-- Binary32 rounding of 5 is exact. -/
theorem roundF32_five : roundF32 5 = 5 := by
  rw [roundF32_of_pos 5 (by norm_num) 2 10485760
      (by rw [qFloorLog2_ge_one _ (by norm_num) 5
            (floor_eq_of _ 5 (by norm_num) (by norm_num))]
          decide)
      (by rw [show scaleB 1 (-(2 - 23)) = 2097152 from by norm_num [scaleB]]
          exact roundNE_down _ 10485760
            (floor_eq_of _ 10485760 (by norm_num) (by norm_num)) (by norm_num))]
  norm_num [scaleB]

/-- Binary32 rounding of 15 is exact. -/
theorem roundF32_fifteen : roundF32 15 = 15 := by
  rw [roundF32_of_pos 15 (by norm_num) 3 15728640
      (by rw [qFloorLog2_ge_one _ (by norm_num) 15
            (floor_eq_of _ 15 (by norm_num) (by norm_num))]
          decide)
      (by rw [show scaleB 1 (-(3 - 23)) = 1048576 from by norm_num [scaleB]]
          exact roundNE_down _ 15728640
            (floor_eq_of _ 15728640 (by norm_num) (by norm_num)) (by norm_num))]
  norm_num [scaleB]

/-- Binary32 rounding of the product oneMinusAlphaF32 times 5: it rounds
up to 4.5 exactly. -/
theorem roundF32_p1 : roundF32 (37748735 / 8388608) = 9 / 2 := by
  rw [roundF32_of_pos (37748735 / 8388608) (by norm_num) 2 9437184
      (by rw [qFloorLog2_ge_one _ (by norm_num) 4
            (floor_eq_of _ 4 (by norm_num) (by norm_num))]
          decide)
      (by rw [show scaleB 1 (-(2 - 23)) = 2097152 from by norm_num [scaleB],
            roundNE_up _ 9437183 (floor_eq_of _ 9437183 (by norm_num) (by norm_num))
              (by norm_num) (by norm_num)]
          decide)]
  norm_num [scaleB]

/-- Binary32 rounding of the product alphaF32 times 15: it rounds down to
1.5 exactly. -/
theorem roundF32_p2 : roundF32 (201326595 / 134217728) = 3 / 2 := by
  rw [roundF32_of_pos (201326595 / 134217728) (by norm_num) 0 12582912
      (by rw [qFloorLog2_ge_one _ (by norm_num) 1
            (floor_eq_of _ 1 (by norm_num) (by norm_num))]
          decide)
      (by rw [show scaleB 1 (-(0 - 23)) = 8388608 from by norm_num [scaleB]]
          exact roundNE_down _ 12582912
            (floor_eq_of _ 12582912 (by norm_num) (by norm_num)) (by norm_num))]
  norm_num [scaleB]

/-- Binary32 rounding of 6 is exact. -/
theorem roundF32_six : roundF32 6 = 6 := by
  rw [roundF32_of_pos 6 (by norm_num) 2 12582912
      (by rw [qFloorLog2_ge_one _ (by norm_num) 6
            (floor_eq_of _ 6 (by norm_num) (by norm_num))]
          decide)
      (by rw [show scaleB 1 (-(2 - 23)) = 2097152 from by norm_num [scaleB]]
          exact roundNE_down _ 12582912
            (floor_eq_of _ 12582912 (by norm_num) (by norm_num)) (by norm_num))]
  norm_num [scaleB]

/-- The single-precision EMA at stored average 2147483640 and observed 0:
the float computation yields 1932735232 (the exact update would give
1932735276). -/
theorem emaF32_big : emaF32 2147483640 0 = 1932735232 := by
  unfold emaF32
  rw [roundF32_zero, mul_zero, roundF32_zero, add_zero, roundF32_big,
    oneMinusAlphaF32_eq,
    show (7549747 / 8388608 : ℚ) * 2147483648 = 1932735232 from by norm_num,
    roundF32_bigr]
  exact roundF32_bigr

/-- The single-precision EMA at stored average 5 and observed 15: the
float computation is exact here and yields 6. -/
theorem emaF32_small : emaF32 5 15 = 6 := by
  unfold emaF32
  rw [roundF32_five, roundF32_fifteen, oneMinusAlphaF32_eq, alphaF32_eq,
    show (7549747 / 8388608 : ℚ) * 5 = 37748735 / 8388608 from by norm_num,
    show (13421773 / 134217728 : ℚ) * 15 = 201326595 / 134217728 from by norm_num,
    roundF32_p1, roundF32_p2,
    show (9 / 2 : ℚ) + 3 / 2 = 6 from by norm_num]
  exact roundF32_six

/-- Server for the C7 counterexample: freshly registered. -/
def c7Server : Server :=
  { hostname := "time.google.com", port := 123, lastSuccessTime := 0,
    failureCount := 0, averageOffset := 0, averageRTT := 0,
    reachable := true, stratum := 2 }

/-- Server for the float32 part of the C7 counterexample: a stored
average offset of 2147483640 (reachable through the hard-set branch,
since the offsets computed by syncTimeFromServer cover all multiples of 8
in int32 via the wrapped multiplication by 1000). -/
def c7FloatServer : Server :=
  { hostname := "time.nist.gov", port := 123, lastSuccessTime := 0,
    failureCount := 0, averageOffset := 2147483640, averageRTT := 50,
    reachable := true, stratum := 2 }

/-- C7 counterexample, in two parts.  Sentinel part: first success with
offset 0 and round trip 50 hard-sets the averages to (0, 50); on the
second success (offset 10, round trip 100) the stored average offset is
still the zero sentinel, so the code hard-sets both averages again,
giving average round trip 100 where the claimed update
(1 - 0.1) * 50 + 0.1 * 100 equals 55 exactly.  Float part: on the
nonzero branch the code evaluates the average in single-precision float,
so at stored average offset 2147483640 with observed offset 0 it stores
1932735232, while the claimed exact value (1 - 0.1) * 2147483640 is the
representable integer 1932735276 - an error of 44 units, not mere
rounding. -/
theorem claim_C7_counterexample :
    (updateServerStats (updateServerStats c7Server true 0 50 0) true 10 100 0).averageRTT
      = 100 ∧
    specEMA 50 100 = 55 ∧
    ¬ (((updateServerStats (updateServerStats c7Server true 0 50 0) true 10 100 0).averageRTT : ℚ)
        = specEMA 50 100) ∧
    (updateServerStats c7FloatServer true 0 0 0).averageOffset = 1932735232 ∧
    specEMA (c7FloatServer.averageOffset : ℚ) 0 = 1932735276 ∧
    ¬ (((updateServerStats c7FloatServer true 0 0 0).averageOffset : ℚ)
        = specEMA (c7FloatServer.averageOffset : ℚ) 0) := by
  have hrtt : (updateServerStats (updateServerStats c7Server true 0 50 0)
      true 10 100 0).averageRTT = 100 := by
    decide
  have hoff : (updateServerStats c7FloatServer true 0 0 0).averageOffset
      = 1932735232 := by
    show truncQ (emaF32 ((2147483640 : Int) : ℚ) ((0 : Int) : ℚ)) = 1932735232
    rw [show ((2147483640 : Int) : ℚ) = 2147483640 from by norm_num,
      show ((0 : Int) : ℚ) = 0 from by norm_num, emaF32_big]
    exact truncQ_of_nonneg _ 1932735232 (by norm_num)
      (floor_eq_of _ 1932735232 (by norm_num) (by norm_num))
  refine ⟨hrtt, by norm_num [specEMA, alphaQ], ?_, hoff, ?_, ?_⟩
  · rw [hrtt]
    norm_num [specEMA, alphaQ]
  · norm_num [specEMA, alphaQ, c7FloatServer]
  · rw [hoff]
    norm_num [specEMA, alphaQ, c7FloatServer]

/-- C7 as amended.  A success update zeroes the failure count.  Whenever
the stored average offset is zero - on the very first success, but also
after any success that stored offset zero - both averages are hard-set
exactly to the observed values.  On a success with a nonzero stored
average offset, each average is replaced by the single-precision
floating-point evaluation of (1 - 0.1) * a + 0.1 * observed, truncated
to the integer storage type; as the counterexample shows, this does not
in general equal the exact value the original claim asserts. -/
theorem claim_C7_amended (s : Server) (o : Int) (r : Nat) (n : Nat) :
    ((updateServerStats s true o r n).failureCount = 0) ∧
    (s.averageOffset = 0 →
      (updateServerStats s true o r n).averageOffset = o ∧
      (updateServerStats s true o r n).averageRTT = r) ∧
    (s.averageOffset ≠ 0 →
      (updateServerStats s true o r n).averageOffset
          = truncQ (emaF32 (s.averageOffset : ℚ) (o : ℚ)) ∧
      (updateServerStats s true o r n).averageRTT
          = (truncQ (emaF32 (s.averageRTT : ℚ) (r : ℚ))).toNat) := by
  refine ⟨?_, fun hz => ?_, fun hnz => ?_⟩
  · unfold updateServerStats
    by_cases hz : s.averageOffset = 0 <;> simp [hz]
  · unfold updateServerStats
    simp [hz]
  · unfold updateServerStats
    simp [hnz]

/-- Server with a nonzero stored average offset for the C7 witness. -/
def c7wServer : Server :=
  { hostname := "time.cloudflare.com", port := 123, lastSuccessTime := 0,
    failureCount := 0, averageOffset := 5, averageRTT := 50,
    reachable := true, stratum := 2 }

/-- Witness for C7 on the nonzero-average branch: at stored average 5
and observed 15 the float evaluation is exact (the stored average
becomes 6). -/
theorem claim_C7_amended_witness :
    (updateServerStats c7wServer true 15 100 0).averageOffset
        = truncQ (emaF32 (c7wServer.averageOffset : ℚ) ((15 : Int) : ℚ)) ∧
    truncQ (emaF32 (c7wServer.averageOffset : ℚ) ((15 : Int) : ℚ)) = 6 :=
  ⟨((claim_C7_amended c7wServer 15 100 0).2.2 (by decide)).1, by
    show truncQ (emaF32 ((5 : Int) : ℚ) ((15 : Int) : ℚ)) = 6
    rw [show ((5 : Int) : ℚ) = 5 from by norm_num,
      show ((15 : Int) : ℚ) = 15 from by norm_num, emaF32_small]
    exact truncQ_of_nonneg _ 6 (by norm_num)
      (floor_eq_of _ 6 (by norm_num) (by norm_num))⟩

/-- C9.  For every UTC instant t: isDST returns false when the active
rule disables DST; otherwise, with s and e the DST start and end
transition instants computed by the ordinal-weekday rule for the calendar
year of t, it returns s ≤ t and t < e when s < e, and t ≥ s or t < e
when s ≥ e. -/
theorem claim_C9_isDST (tz : TimeZoneConfig) (t : Int) :
    isDST tz t = true ↔
      (tz.useDST = true ∧
        ((getDSTTransition (yearOf t) tz.dstStartMonth tz.dstStartWeek
            tz.dstStartDayOfWeek tz.dstStartHour <
          getDSTTransition (yearOf t) tz.dstEndMonth tz.dstEndWeek
            tz.dstEndDayOfWeek tz.dstEndHour →
          (getDSTTransition (yearOf t) tz.dstStartMonth tz.dstStartWeek
              tz.dstStartDayOfWeek tz.dstStartHour ≤ t ∧
            t < getDSTTransition (yearOf t) tz.dstEndMonth tz.dstEndWeek
              tz.dstEndDayOfWeek tz.dstEndHour)) ∧
        (getDSTTransition (yearOf t) tz.dstEndMonth tz.dstEndWeek
            tz.dstEndDayOfWeek tz.dstEndHour ≤
          getDSTTransition (yearOf t) tz.dstStartMonth tz.dstStartWeek
            tz.dstStartDayOfWeek tz.dstStartHour →
          (getDSTTransition (yearOf t) tz.dstStartMonth tz.dstStartWeek
              tz.dstStartDayOfWeek tz.dstStartHour ≤ t ∨
            t < getDSTTransition (yearOf t) tz.dstEndMonth tz.dstEndWeek
              tz.dstEndDayOfWeek tz.dstEndHour)))) := by
  unfold isDST
  by_cases hdst : tz.useDST = false
  · simp [hdst]
  · have hdst' : tz.useDST = true := by
      revert hdst
      cases tz.useDST <;> simp
    rw [if_neg hdst]
    simp only [hdst', true_and]
    by_cases hlt :
        getDSTTransition (yearOf t) tz.dstStartMonth tz.dstStartWeek
            tz.dstStartDayOfWeek tz.dstStartHour <
          getDSTTransition (yearOf t) tz.dstEndMonth tz.dstEndWeek
            tz.dstEndDayOfWeek tz.dstEndHour
    · simp only [if_pos hlt, decide_eq_true_eq]
      constructor
      · intro hc
        exact ⟨fun _ => hc, fun hle => absurd hlt (by omega)⟩
      · intro hc
        exact hc.1 hlt
    · simp only [if_neg hlt, decide_eq_true_eq]
      constructor
      · intro hc
        exact ⟨fun h => absurd h hlt, fun _ => hc⟩
      · intro hc
        exact hc.2 (by omega)

/-- The claim has no hypothesis beyond its universally quantified inputs;
this closed instance exercises both directions of the computation on the
EST preset: July 2024 is inside DST, January 2024 is not, and a rule with
DST disabled always answers false. -/
theorem claim_C9_isDST_examples :
    isDST getTimeZoneEST 1719792000 = true ∧
    isDST getTimeZoneEST 1705276800 = false ∧
    isDST getTimeZoneUTC 1719792000 = false := by
  decide

/-- When no record matches the hostname, the serverInfo lookup of
syncTimeFromServer finds nothing and the stats update leaves the list
unchanged. -/
theorem updateFirstMatch_eq_of_forall (l : List Server) (h : String)
    (f : Server → Server) (hno : ∀ s ∈ l, s.hostname ≠ h) :
    updateFirstMatch l h f = l := by
  induction l with
  | nil => rfl
  | cons x xs ih =>
    unfold updateFirstMatch
    rw [if_neg (hno x (by simp)), ih (fun s hs => hno s (by simp [hs]))]

/-- C10.  Calling syncTimeFromServer with a hostname absent from the
registry still performs the full cycle: the registry is unchanged on
every outcome (and on failure the whole state is unchanged), and on a
successful exchange the clock-set event fires, the registered callbacks
fire, and the global statistics (sync count, last sync time, last offset,
cumulative and average duration) are updated. -/
theorem claim_C10_frame (st : ClientState) (host : String)
    (outcome : TransportOutcome) (rtt : Nat) (curT : Int) (dur : Nat)
    (habs : ∀ s ∈ st.servers, s.hostname ≠ host) :
    ((syncTimeFromServer st host outcome rtt curT dur).2.1.servers = st.servers) ∧
    ((syncTimeFromServer st host outcome rtt curT dur).1.success = false →
      (syncTimeFromServer st host outcome rtt curT dur).2.1 = st) ∧
    ((syncTimeFromServer st host outcome rtt curT dur).1.success = true →
      (syncTimeFromServer st host outcome rtt curT dur).2.1.syncCount
          = st.syncCount + 1 ∧
      (syncTimeFromServer st host outcome rtt curT dur).2.1.lastSyncTime
          = (syncTimeFromServer st host outcome rtt curT dur).1.syncTime ∧
      (syncTimeFromServer st host outcome rtt curT dur).2.1.lastOffset
          = (syncTimeFromServer st host outcome rtt curT dur).1.offsetMs ∧
      (syncTimeFromServer st host outcome rtt curT dur).2.1.totalSyncTime
          = st.totalSyncTime + dur ∧
      (syncTimeFromServer st host outcome rtt curT dur).2.1.averageSyncTime
          = ((st.totalSyncTime + dur : Nat) : ℚ) / ((st.syncCount + 1 : Nat) : ℚ) ∧
      SyncEvent.clockSet ((syncTimeFromServer st host outcome rtt curT dur).1.syncTime)
          ∈ (syncTimeFromServer st host outcome rtt curT dur).2.2 ∧
      (st.hasSyncCallback = true →
        SyncEvent.syncCb ∈ (syncTimeFromServer st host outcome rtt curT dur).2.2) ∧
      (st.hasRtcCallback = true →
        SyncEvent.rtcCb ∈ (syncTimeFromServer st host outcome rtt curT dur).2.2)) := by
  have hfixAll : ∀ f : Server → Server,
      updateFirstMatch st.servers host f = st.servers :=
    fun f => updateFirstMatch_eq_of_forall st.servers host f habs
  cases outcome with
  | sendFail =>
    refine ⟨?_, fun _ => ?_,
      fun hsucc => by simp [syncTimeFromServer, emptyResult] at hsucc⟩
    · simp [syncTimeFromServer, hfixAll]
    · simp [syncTimeFromServer, hfixAll]
  | timeout =>
    refine ⟨?_, fun _ => ?_,
      fun hsucc => by simp [syncTimeFromServer, emptyResult] at hsucc⟩
    · simp [syncTimeFromServer, hfixAll]
    · simp [syncTimeFromServer, hfixAll]
  | response p =>
    cases hp : parseNTPPacket p rtt with
    | none =>
      refine ⟨?_, fun _ => ?_,
        fun hsucc => by simp [syncTimeFromServer, emptyResult, hp] at hsucc⟩
      · simp [syncTimeFromServer, hp, hfixAll]
      · simp [syncTimeFromServer, hp, hfixAll]
    | some t =>
      refine ⟨?_, fun hfail => ?_, fun _ => ?_⟩
      · simp [syncTimeFromServer, hp, hfixAll]
      · simp [syncTimeFromServer, hp] at hfail
      · refine ⟨?_, ?_, ?_, ?_, ?_, ?_, fun hcb => ?_, fun hcb => ?_⟩
        · simp [syncTimeFromServer, hp]
        · simp [syncTimeFromServer, hp]
        · simp [syncTimeFromServer, hp]
        · simp [syncTimeFromServer, hp]
        · simp [syncTimeFromServer, hp]
        · simp [syncTimeFromServer, hp]
        · simp [syncTimeFromServer, hp, hcb]
        · simp [syncTimeFromServer, hp, hcb]

/-- Registry and inputs for the C10 witness: one registered server whose
hostname differs from the one being synced against. -/
def c10State : ClientState :=
  { initialized := true,
    servers := [freshServer "time.nist.gov" 123],
    syncCount := 3, syncFailures := 1, lastSyncTime := 0, lastOffset := 0,
    totalSyncTime := 900, averageSyncTime := 300,
    hasSyncCallback := true, hasRtcCallback := true,
    hasTimeChangeCallback := true }

/-- Packet for the C10 witness. -/
def c10Packet : NTPPacket :=
  { li_vn_mode := 0x24, stratum := 1, poll := 0, precision := 0,
    rootDelay := 0, rootDispersion := 0, refId := 0,
    refTm_s := 0, refTm_f := 0, origTm_s := 0, origTm_f := 0,
    rxTm_s := 0, rxTm_f := 0, txTm_s := 3913056000, txTm_f := 0 }

/-- Witness for C10: a successful sync against an unregistered hostname
leaves the registry untouched. -/
theorem claim_C10_frame_witness :
    (syncTimeFromServer c10State "pool.ntp.org"
        (TransportOutcome.response c10Packet) 100 1704067100 120).2.1.servers
      = c10State.servers :=
  (claim_C10_frame c10State "pool.ntp.org"
    (TransportOutcome.response c10Packet) 100 1704067100 120 (by decide)).1

/-- The failure update does not change the hostname. -/
theorem failUpdate_hostname (s : Server) : (failUpdate s).hostname = s.hostname :=
  rfl

/-- The failure update increments the consecutive-failure count. -/
theorem failUpdate_failureCount (s : Server) :
    (failUpdate s).failureCount = s.failureCount + 1 :=
  rfl

/-- The reachable flag after a failure update. -/
theorem failUpdate_reachable (s : Server) :
    (failUpdate s).reachable =
      (if MAX_RETRY_COUNT ≤ s.failureCount + 1 then false else s.reachable) :=
  rfl

/-- Setting a list position to the value it already holds is the
identity. -/
theorem set_self_of_getElem? {α : Type} (l : List α) :
    ∀ (i : Nat) (a : α), l[i]? = some a → l.set i a = l := by
  induction l with
  | nil =>
    intro i a h
    simp at h
  | cons x xs ih =>
    intro i a h
    cases i with
    | zero =>
      rw [List.getElem?_cons_zero] at h
      obtain rfl := Option.some.inj h
      rfl
    | succ k =>
      rw [List.getElem?_cons_succ] at h
      show x :: xs.set k a = x :: xs
      rw [ih k a h]

/-- updateFirstMatch preserves the list length. -/
theorem updateFirstMatch_length (l : List Server) (h : String)
    (f : Server → Server) : (updateFirstMatch l h f).length = l.length := by
  induction l with
  | nil => rfl
  | cons x xs ih =>
    unfold updateFirstMatch
    split_ifs <;> simp [ih]

/-- When the hostnames of all records before position i differ from that
of the record at i, updateFirstMatch on that hostname updates exactly
position i. -/
theorem updateFirstMatch_set (l : List Server) :
    ∀ (i : Nat) (s : Server) (f : Server → Server), l[i]? = some s →
      (∀ j t, j < i → l[j]? = some t → t.hostname ≠ s.hostname) →
      updateFirstMatch l s.hostname f = l.set i (f s) := by
  induction l with
  | nil =>
    intro i s f hget _
    simp at hget
  | cons x xs ih =>
    intro i s f hget hpre
    cases i with
    | zero =>
      rw [List.getElem?_cons_zero] at hget
      obtain rfl := Option.some.inj hget
      unfold updateFirstMatch
      rw [if_pos rfl]
      rfl
    | succ k =>
      rw [List.getElem?_cons_succ] at hget
      have hx : x.hostname ≠ s.hostname :=
        hpre 0 x (Nat.succ_pos k) (by rw [List.getElem?_cons_zero])
      unfold updateFirstMatch
      rw [if_neg hx]
      have hrec := ih k s f hget
        (fun j t hj hg =>
          hpre (j + 1) t (by omega) (by rw [List.getElem?_cons_succ]; exact hg))
      rw [hrec]
      rfl

/-- updateFirstMatch with a hostname-preserving function preserves the
hostname sequence. -/
theorem updateFirstMatch_hostnames (l : List Server) (h : String)
    (f : Server → Server) (hf : ∀ s, (f s).hostname = s.hostname) :
    (updateFirstMatch l h f).map Server.hostname = l.map Server.hostname := by
  induction l with
  | nil => rfl
  | cons x xs ih =>
    unfold updateFirstMatch
    split_ifs <;> simp [ih, hf]

/-- In a registry with pairwise-distinct hostnames, records at different
positions have different hostnames. -/
theorem distinct_ne (l : List Server) :
    distinctHostnames l → ∀ (i j : Nat) (s t : Server), l[i]? = some s →
      l[j]? = some t → i ≠ j → s.hostname ≠ t.hostname := by
  induction l with
  | nil =>
    intro _ i j s t hi _ _
    simp at hi
  | cons x xs ih =>
    intro hd i j s t hi hj hij
    have hd' : x.hostname ∉ xs.map Server.hostname ∧
        (xs.map Server.hostname).Nodup := by
      simpa [distinctHostnames, List.nodup_cons] using hd
    cases i with
    | zero =>
      rw [List.getElem?_cons_zero] at hi
      obtain rfl := Option.some.inj hi
      cases j with
      | zero => exact absurd rfl hij
      | succ m =>
        rw [List.getElem?_cons_succ] at hj
        have ht : t.hostname ∈ xs.map Server.hostname :=
          List.mem_map_of_mem Server.hostname (List.getElem?_mem hj)
        exact fun hc => hd'.1 (hc ▸ ht)
    | succ k =>
      rw [List.getElem?_cons_succ] at hi
      cases j with
      | zero =>
        rw [List.getElem?_cons_zero] at hj
        obtain rfl := Option.some.inj hj
        have hs : s.hostname ∈ xs.map Server.hostname :=
          List.mem_map_of_mem Server.hostname (List.getElem?_mem hi)
        exact fun hc => hd'.1 (hc ▸ hs)
      | succ m =>
        rw [List.getElem?_cons_succ] at hj
        exact ih hd'.2 k m s t hi hj (by omega)

/-- Setting position i to the failure update of the record already there
preserves hostname distinctness. -/
theorem distinct_set_failUpdate (l : List Server) (i : Nat) (s : Server)
    (hget : l[i]? = some s) (hd : distinctHostnames l) :
    distinctHostnames (l.set i (failUpdate s)) := by
  unfold distinctHostnames at hd ⊢
  rw [List.map_set, failUpdate_hostname,
    set_self_of_getElem? (l.map Server.hostname) i s.hostname
      (by rw [List.getElem?_map, hget]; rfl)]
  exact hd

/-- The fallback loop applies specFn position by position: in a registry
with distinct hostnames, every position j in the window [i, i + n)
receives specFn and every other position is untouched. -/
theorem loopFailAux_getElem? :
    ∀ (n : Nat) (l : List Server) (i j : Nat), distinctHostnames l →
      (loopFailAux n l i)[j]? =
        (if i ≤ j ∧ j < i + n then l[j]?.map specFn else l[j]?) := by
  intro n
  induction n with
  | zero =>
    intro l i j _
    rw [if_neg (by omega)]
    rfl
  | succ n ih =>
    intro l i j hd
    unfold loopFailAux
    cases hgi : l[i]? with
    | none =>
      dsimp only
      have hlen : l.length ≤ i := by
        by_contra hc
        push_neg at hc
        rw [List.getElem?_eq_getElem hc] at hgi
        exact Option.noConfusion hgi
      by_cases hij : i ≤ j ∧ j < i + (n + 1)
      · rw [if_pos hij, List.getElem?_eq_none (by omega)]
        rfl
      · rw [if_neg hij]
    | some s =>
      cases hr : s.reachable with
      | false =>
        dsimp only
        rw [if_neg (by rw [hr]; exact Bool.false_ne_true)]
        rw [ih l (i + 1) j hd]
        by_cases hji : j = i
        · subst hji
          rw [if_neg (by omega), if_pos (by omega), hgi]
          simp [specFn, hr]
        · by_cases hcond : i ≤ j ∧ j < i + (n + 1)
          · rw [if_pos (by omega), if_pos hcond]
          · rw [if_neg (by omega), if_neg hcond]
      | true =>
        dsimp only
        rw [if_pos hr]
        have hset : updateFirstMatch l s.hostname failUpdate
            = l.set i (failUpdate s) :=
          updateFirstMatch_set l i s failUpdate hgi
            (fun j t hj hg => distinct_ne l hd j i t s hg hgi (by omega))
        rw [hset]
        rw [ih (l.set i (failUpdate s)) (i + 1) j
          (distinct_set_failUpdate l i s hgi hd)]
        have hilen : i < l.length := by
          by_contra hc
          push_neg at hc
          rw [List.getElem?_eq_none hc] at hgi
          exact Option.noConfusion hgi
        by_cases hji : j = i
        · subst hji
          rw [if_neg (by omega), if_pos (by omega),
            List.getElem?_set_eq_of_lt (failUpdate s) hilen, hgi]
          simp [specFn, hr]
        · rw [List.getElem?_set_ne (by omega : i ≠ j)]
          by_cases hcond : i ≤ j ∧ j < i + (n + 1)
          · rw [if_pos (by omega), if_pos hcond]
          · rw [if_neg (by omega), if_neg hcond]

/-- In a registry with distinct hostnames, one full fallback pass maps
specFn over the list. -/
theorem loopFail_eq_map (l : List Server) (hd : distinctHostnames l) :
    loopFail l = l.map specFn := by
  apply List.ext_getElem?
  intro j
  unfold loopFail
  rw [loopFailAux_getElem? l.length l 0 j hd, List.getElem?_map]
  by_cases hjl : j < l.length
  · rw [if_pos (by omega)]
  · rw [if_neg (by omega), List.getElem?_eq_none (by omega)]
    rfl

/-- Soundness of the best-server scan: a returned index designates a
reachable record of the list, at an absolute position shifted by the
starting index. -/
theorem getBestServerGo_sound :
    ∀ (l : List Server) (i : Nat) (best : Option Nat) (bs : Nat) (b : Nat),
      getBestServerGo l i best bs = some b →
      best = some b ∨
        ∃ k s, l[k]? = some s ∧ s.reachable = true ∧ b = i + k := by
  intro l
  induction l with
  | nil =>
    intro i best bs b h
    exact Or.inl h
  | cons x xs ih =>
    intro i best bs b h
    unfold getBestServerGo at h
    split_ifs at h with hc
    · rcases ih (i + 1) (some i) (scoreOf x) b h with h1 | ⟨k, s, hk, hrs, rfl⟩
      · obtain rfl := Option.some.inj h1
        exact Or.inr ⟨0, x, by rw [List.getElem?_cons_zero], hc.1, by omega⟩
      · exact Or.inr ⟨k + 1, s, by rw [List.getElem?_cons_succ]; exact hk, hrs, by omega⟩
    · rcases ih (i + 1) best bs b h with h1 | ⟨k, s, hk, hrs, rfl⟩
      · exact Or.inl h1
      · exact Or.inr ⟨k + 1, s, by rw [List.getElem?_cons_succ]; exact hk, hrs, by omega⟩

/-- The best server returned by the scan is a reachable record. -/
theorem getBestServer_sound (l : List Server) (b : Nat)
    (h : getBestServer l = some b) :
    ∃ s, l[b]? = some s ∧ s.reachable = true := by
  rcases getBestServerGo_sound l 0 none (2 ^ 32 - 1) b h with h1 | ⟨k, s, hk, hrs, hb⟩
  · exact Option.noConfusion h1
  · exact ⟨s, by rw [hb]; simpa using hk, hrs⟩

/-- C3 as amended.  When an initialized client with pairwise-distinct
server hostnames is run through syncTime and every request/response
attempt fails, the call returns success=false with the descriptive error,
increments the global failure counter by exactly one, and changes the
consecutive-failure counts as follows: a server unreachable before the
call is untouched; the reachable server selected by the best-server scan
is attempted twice (once as best, once more in the fallback loop) and so
gains two failures, unless its first failure already reaches the
unreachability threshold 3, in which case the loop skips it and it gains
one; every other reachable server gains exactly one. -/
theorem claim_C3_amended (st : ClientState) (hinit : st.initialized = true)
    (hd : distinctHostnames st.servers) :
    (syncTimeAllFail st).1.success = false ∧
    (syncTimeAllFail st).1.error = "Failed to sync with any server" ∧
    (syncTimeAllFail st).2.syncFailures = st.syncFailures + 1 ∧
    (∀ i s, st.servers[i]? = some s →
      ((syncTimeAllFail st).2.servers[i]?).map Server.failureCount =
        some (s.failureCount +
          (if s.reachable = false then 0
           else if getBestServer st.servers = some i then
             (if MAX_RETRY_COUNT ≤ s.failureCount + 1 then 1 else 2)
           else 1))) := by
  unfold syncTimeAllFail
  rw [if_neg (by rw [hinit]; decide)]
  refine ⟨rfl, rfl, rfl, ?_⟩
  intro i s hgs
  cases hbest : getBestServer st.servers with
  | none =>
    dsimp only
    rw [loopFail_eq_map st.servers hd, List.getElem?_map, hgs]
    cases hr : s.reachable with
    | false => simp [specFn, hr]
    | true =>
      rw [if_neg (by decide),
        if_neg (fun hc => Option.noConfusion hc)]
      simp [specFn, hr, failUpdate_failureCount]
  | some b =>
    obtain ⟨sb, hgb, hrb⟩ := getBestServer_sound st.servers b hbest
    dsimp only
    rw [hgb]
    dsimp only
    have hset : updateFirstMatch st.servers sb.hostname failUpdate
        = st.servers.set b (failUpdate sb) :=
      updateFirstMatch_set st.servers b sb failUpdate hgb
        (fun j t hj hg => distinct_ne st.servers hd j b t sb hg hgb (by omega))
    rw [hset, loopFail_eq_map _ (distinct_set_failUpdate st.servers b sb hgb hd),
      List.getElem?_map]
    by_cases hib : i = b
    · subst hib
      obtain rfl : s = sb := by
        rw [hgs] at hgb
        exact Option.some.inj hgb
      have hilen : i < st.servers.length := by
        by_contra hc
        push_neg at hc
        rw [List.getElem?_eq_none hc] at hgs
        exact Option.noConfusion hgs
      rw [List.getElem?_set_eq_of_lt (failUpdate s) hilen]
      rw [if_neg (by rw [hrb]; decide), if_pos rfl]
      by_cases h3 : MAX_RETRY_COUNT ≤ s.failureCount + 1
      · rw [if_pos h3]
        have hru : (failUpdate s).reachable = false := by
          rw [failUpdate_reachable, if_pos h3]
        simp [specFn, hru, failUpdate_failureCount]
      · rw [if_neg h3]
        have hru : (failUpdate s).reachable = true := by
          rw [failUpdate_reachable, if_neg h3, hrb]
        simp [specFn, hru, failUpdate_failureCount]
    · rw [List.getElem?_set_ne (fun hc => hib hc.symm), hgs]
      cases hr : s.reachable with
      | false => simp [specFn, hr]
      | true =>
        rw [if_neg (by decide),
          if_neg (fun hc => hib (Option.some.inj hc).symm)]
        simp [specFn, hr, failUpdate_failureCount]

/-- Registry and state for the C3 counterexample: a single reachable
server with no failures on record. -/
def c3Server : Server :=
  { hostname := "pool.ntp.org", port := 123, lastSuccessTime := 0,
    failureCount := 0, averageOffset := 0, averageRTT := 0,
    reachable := true, stratum := 255 }

/-- Client state for the C3 counterexample. -/
def c3State : ClientState :=
  { initialized := true, servers := [c3Server], syncCount := 0,
    syncFailures := 0, lastSyncTime := 0, lastOffset := 0,
    totalSyncTime := 0, averageSyncTime := 0, hasSyncCallback := false,
    hasRtcCallback := false, hasTimeChangeCallback := false }

/-- C3 counterexample.  With one registered reachable server and every
attempt failing, syncTime attempts that server twice (once as the best
server, once in the fallback loop), so its consecutive-failure count ends
at 2, not at the claimed value of exactly one more than before. -/
theorem claim_C3_counterexample :
    ((syncTimeAllFail c3State).2.servers.map Server.failureCount = [2]) ∧
    c3Server.failureCount = 0 ∧
    ¬ ((syncTimeAllFail c3State).2.servers.map Server.failureCount
        = [c3Server.failureCount + 1]) := by
  decide

/-- Witness for C3 as amended, at the one-server state: the outcome is a
failure and the global failure counter advances by one. -/
theorem claim_C3_amended_witness :
    (syncTimeAllFail c3State).1.success = false ∧
    (syncTimeAllFail c3State).2.syncFailures = c3State.syncFailures + 1 :=
  ⟨(claim_C3_amended c3State rfl (by decide)).1,
   (claim_C3_amended c3State rfl (by decide)).2.2.1⟩

end NTP
